import Mathlib

/-!
Verification of the Dumroo-ai client against its specification.

The repository is a natural-language student-data query system.  The client
code under `client/src` (ChatPanel, Dashboard, ResultsPanel, RoleSelector,
the API layer `lib/apis.js`) is embedded shallowly below: React state
updates become explicit state-passing functions, JS objects become
structures or association lists, and JS truthiness on strings and options
is made explicit.  The backend components that are not part of the client
sources (the access-scope enforcer and query evaluator) are modelled from
the specification text and marked as such.
-/

set_option autoImplicit false

namespace Dumroo

/-- JSON-like value occurring in a result row, as delivered by the server
and consumed by the React components. -/
inductive JVal where
  | num (q : Rat)
  | str (s : String)
  | bool (b : Bool)
  | null
deriving DecidableEq, Repr

/-- A result row is a JS object: an ordered list of key/value pairs
(JS objects preserve insertion order for non-integer-like string keys). -/
abbrev Row := List (String × JVal)

namespace ResultsPanel

/-- Sort direction of the results table (`sortConfig.direction`). -/
inductive Direction where
  | asc
  | desc
deriving DecidableEq, Repr

/-- The `sortConfig` React state of `ResultsPanel`, initially
`{ key: null, direction: asc }`; `key = none` models `key: null`. -/
structure SortConfig where
  key : Option String
  direction : Direction
deriving DecidableEq, Repr

/-- Property lookup `row[key]` on a JS object; `none` models `undefined`. -/
def rowGet (r : Row) (k : String) : Option JVal :=
  (r.find? (fun p => p.1 = k)).map Prod.snd

/-- JS `String(val)` conversion as used by the sort comparator
(numeric formatting simplified to the standard rational rendering;
no claim depends on the string branch of the comparator). -/
def jsString : Option JVal → String
  | some (.num q) => toString q
  | some (.str s) => s
  | some (.bool b) => if b then "true" else "false"
  | some .null => "null"
  | none => "undefined"

/-- The comparator inside `sortedResults`: numeric difference when both
values are numbers, otherwise lowercased string comparison
(`localeCompare` modelled as lexicographic order). -/
def cmpRows (key : String) (dir : Direction) (a b : Row) : Bool :=
  match rowGet a key, rowGet b key with
  | some (.num x), some (.num y) =>
    match dir with
    | .asc => decide (x ≤ y)
    | .desc => decide (y ≤ x)
  | av, bv =>
    let sa := (jsString av).toLower
    let sb := (jsString bv).toLower
    match dir with
    | .asc => decide (sa ≤ sb)
    | .desc => decide (sb ≤ sa)

/-- `ResultsPanel.sortedResults`: `if (!sortConfig.key || results.length === 0)
return results || []`, otherwise a stable sort of a copy of `results`. -/
def sortedResults (cfg : SortConfig) (results : List Row) : List Row :=
  match cfg.key with
  | none => results
  | some k =>
    if results = [] then results
    else results.mergeSort (cmpRows k cfg.direction)

/-- `ResultsPanel.headers`: the keys of the first row when `results` is
non-empty, otherwise the empty list. -/
def headers (results : List Row) : List String :=
  match results with
  | [] => []
  | r :: _ => r.map Prod.fst

/-- `ResultsPanel.visibleHeaders`: headers not in the hidden-column set. -/
def visibleHeaders (hidden : List String) (results : List Row) : List String :=
  (headers results).filter (fun h => !hidden.contains h)

/-- What the non-empty branch of `ResultsPanel` renders: the header record
count, the column buttons/headers, the table body rows, and the footer
counts (`Showing N of N results`). -/
structure PanelView where
  headerCount : Nat
  columns : List String
  bodyRows : List Row
  footerShown : Nat
  footerTotal : Nat
deriving DecidableEq, Repr

/-- The render function of `ResultsPanel`: the empty-state branch
(`!results || results.length === 0`) renders no table at all (`none`);
otherwise the header count is `sortedResults.length`, the body maps over
`sortedResults`, and the footer shows `sortedResults.length` twice. -/
def renderPanel (cfg : SortConfig) (hidden : List String) (results : List Row) :
    Option PanelView :=
  if results = [] then none
  else
    let sorted := sortedResults cfg results
    some { headerCount := sorted.length
         , columns := visibleHeaders hidden results
         , bodyRows := sorted
         , footerShown := sorted.length
         , footerTotal := sorted.length }

end ResultsPanel

namespace Dashboard

/-- A row as read by the `Dashboard` aggregations: only `r.class` and
`r.quiz_score` are consulted.  `none` models an absent/null property. -/
structure DRow where
  cls : Option String
  quiz_score : Option Rat
deriving DecidableEq, Repr

/-- The lookup `const cls = r.class || Unknown-fallback` — JS truthiness:
absent, null and the empty string all fall back to the string Unknown. -/
def classOf (r : DRow) : String :=
  match r.cls with
  | some c => if c = "" then "Unknown" else c
  | none => "Unknown"

/-- `Number(r.quiz_score || 0)` — an absent score contributes 0. -/
def scoreOf (r : DRow) : Rat :=
  match r.quiz_score with
  | some q => q
  | none => 0

/-- One step of the JS-object accumulation pattern `map[cls] = f(map[cls])`:
update the entry for `k` in place if present, otherwise append a fresh
entry at the end (JS objects keep insertion order of string keys). -/
def assocBump {α : Type} (upd : Option α → α) :
    List (String × α) → String → List (String × α)
  | [], k => [(k, upd none)]
  | (k0, v) :: rest, k =>
    if k0 = k then (k0, upd (some v)) :: rest
    else (k0, v) :: assocBump upd rest k

/-- The per-entry update of `Dashboard.byClass`:
`map[cls] = (map[cls] || 0) + 1`. -/
def countUpd (o : Option Nat) : Nat := o.getD 0 + 1

/-- `Dashboard.byClass`: per-class row counts, then `Object.entries`. -/
def byClass (results : List DRow) : List (String × Nat) :=
  results.foldl (fun m r => assocBump countUpd m (classOf r)) []

/-- The per-entry update of `Dashboard.scores`:
`map[cls] = map[cls] || { total: 0, count: 0 }` followed by
`map[cls].total += Number(r.quiz_score || 0); map[cls].count += 1`. -/
def scoreUpd (r : DRow) (o : Option (Rat × Nat)) : Rat × Nat :=
  let p := o.getD (0, 0)
  (p.1 + scoreOf r, p.2 + 1)

/-- The grouped totals and counts accumulated inside `Dashboard.scores`. -/
def scoresMap (results : List DRow) : List (String × (Rat × Nat)) :=
  results.foldl (fun m r => assocBump (scoreUpd r) m (classOf r)) []

/-- JS `+(x.toFixed(1))`: round to one decimal digit. -/
def roundTo1 (q : Rat) : Rat := (round (q * 10) : Int) / 10

/-- `Dashboard.scores`: empty input short-circuits to `[]`; otherwise each
group is reported as `{ name, avg: +(total / count).toFixed(1) }`. -/
def scores (results : List DRow) : List (String × Rat) :=
  if results = [] then []
  else (scoresMap results).map (fun p => (p.1, roundTo1 (p.2.1 / (p.2.2 : Rat))))

/-- Order of first appearance of the keys of a list, given the keys already
seen — the specification's description of JS object key order. -/
def firstOccurAux (seen : List String) : List String → List String
  | [] => []
  | k :: rest =>
    if k ∈ seen then firstOccurAux seen rest
    else k :: firstOccurAux (k :: seen) rest

/-- Order of first appearance of the elements of a list. -/
def firstOccur (l : List String) : List String := firstOccurAux [] l

end Dashboard

/-- JS string trimming (`input.trim()`): strip whitespace from both ends.
Implemented structurally on the character list so that it evaluates inside
the kernel (the standard library trim uses well-founded recursion). -/
def jsTrim (s : String) : String :=
  String.mk (((s.data.dropWhile Char.isWhitespace).reverse.dropWhile
    Char.isWhitespace).reverse)

/-- JS `a || b` on a possibly-absent string: an absent value and the empty
string are falsy and fall through to the default. -/
def jsOrStr (o : Option String) (dflt : String) : String :=
  match o with
  | some s => if s = "" then dflt else s
  | none => dflt

/-- JS truthiness of a possibly-absent string value. -/
def jsTruthy (o : Option String) : Bool :=
  match o with
  | some s => s ≠ ""
  | none => false

namespace APIClient

/-- The slice of an error-response JSON body that the catch clause of
`postQuery` could read through `errorData.detail`. -/
structure RespData where
  detail : Option String
deriving DecidableEq, Repr

/-- An HTTP error-response JSON body, restricted to the properties the
client code reads: its own `detail`, its own `message`, and (only because
the catch clause performs the lookup `error.response?.data` on whatever
was thrown) a possible nested `response.data` object, collapsed here into
one optional field. -/
structure JsonBody where
  detail : Option String
  message : Option String
  responseData : Option RespData
deriving DecidableEq, Repr

/-- The axios-level rejection value reaching the response interceptor:
`error.message` and `error.response?.data` (absent when no HTTP response
was received, e.g. network failure or timeout). -/
structure AxiosError where
  message : String
  responseData : Option JsonBody
deriving DecidableEq, Repr

/-- What `APIClient.handleError` throws: either the response body itself
(`throw error.response.data`), or the synthesized network-error object
`{ error: error.message || default, code: NETWORK_ERROR, timestamp }` —
which notably has no `message` and no `response` property. -/
inductive Thrown where
  | body (b : JsonBody)
  | synth (errField : String)
deriving DecidableEq, Repr

/-- `APIClient.handleError`: re-throw the response body when present,
otherwise throw a synthesized network-error object. -/
def handleError (e : AxiosError) : Thrown :=
  match e.responseData with
  | some b => .body b
  | none => .synth (if e.message = "" then "Network error" else e.message)

/-- The value `postQuery` resolves with.  Fields are optional because a
successful response body is server-controlled and may omit any of them. -/
structure QueryResult where
  error : Option String
  condition : Option String
  results : Option (List Row)
  count : Option Nat
deriving DecidableEq, Repr

/-- The catch clause of `postQuery`:
`const errorData = error.response?.data || default-empty-object` followed
by `error: errorData.detail || error.message || fallback-text`, with the
empty condition string, `results: []` and `count: 0`. -/
def catchClause (t : Thrown) : QueryResult :=
  let errorDataDetail : Option String :=
    match t with
    | .body b => b.responseData.bind (fun rd => rd.detail)
    | .synth _ => none
  let thrownMessage : Option String :=
    match t with
    | .body b => b.message
    | .synth _ => none
  { error := some (jsOrStr errorDataDetail (jsOrStr thrownMessage "Failed to process query"))
  , condition := some ""
  , results := some []
  , count := some 0 }

/-- Outcome of the underlying `axiosInstance.post('/query', data)` call. -/
inductive ReqOutcome where
  | success (data : QueryResult)
  | failure (e : AxiosError)
deriving DecidableEq, Repr

/-- `APIClient.postQuery`: return `response.data` on success; on failure
the interceptor's `handleError` throws and the catch clause converts the
thrown value into an error-shaped result.  Totality of this function is
the embedding of "postQuery never rejects". -/
def postQuery (o : ReqOutcome) : QueryResult :=
  match o with
  | .success d => d
  | .failure e => catchClause (handleError e)

end APIClient

namespace ChatPanel

/-- The role state owned by `App`/`RoleSelector`: `{ grade, class }`, where
`null` (here `none`) means All Grades / All Classes. -/
structure Role where
  grade : Option Int
  cls : Option String
deriving DecidableEq, Repr

/-- The `role` object of the request payload built in `handleSend`:
`{ grade: role.grade, class_name: role.class }`. -/
structure RolePayload where
  grade : Option Int
  class_name : Option String
deriving DecidableEq, Repr

/-- The request payload of `api.postQuery({ query, role, sessionId })`. -/
structure Payload where
  query : String
  role : RolePayload
  sessionId : String
deriving DecidableEq, Repr

/-- Construction of the `postQuery` payload in `ChatPanel.handleSend`. -/
def buildPayload (input : String) (role : Role) (sessionId : String) : Payload :=
  { query := input
  , role := { grade := role.grade, class_name := role.cls }
  , sessionId := sessionId }

/-- A chat message as appended by `handleSend` (timestamps omitted:
real time is outside the embedding). -/
structure Msg where
  sender : String
  text : String
  isError : Bool
  count : Option Nat
deriving DecidableEq, Repr

/-- The component state touched by `handleSend`: the local `error` string
and the lifted `messages`, `results` and `condition` state. -/
structure ChatState where
  error : String
  messages : List Msg
  results : List Row
  condition : String
deriving DecidableEq, Repr

/-- How the awaited `postQuery` call ends inside `handleSend`: with a
resolved response value, or with a thrown exception (whose `message`
property may be absent). -/
inductive SendOutcome where
  | response (r : APIClient.QueryResult)
  | thrown (message : Option String)
deriving DecidableEq, Repr

/-- `ChatPanel.handleSend` as a state transition.  Empty (all-whitespace)
input returns early.  Otherwise the error state is cleared and the user
message appended; then, if `res.error` is truthy, only the error state and
an error chat message are produced, while on the non-error branch
`condition` and `results` are overwritten and a success message appended.
The catch branch again touches only the error state and messages. -/
def handleSend (st : ChatState) (input : String) (o : SendOutcome) : ChatState :=
  if jsTrim input = "" then st
  else
    let st1 : ChatState :=
      { st with
        error := ""
        messages := st.messages ++ [{ sender := "user", text := input, isError := false, count := none }] }
    match o with
    | .response r =>
      if jsTruthy r.error then
        { st1 with
          error := r.error.getD ""
          messages := st1.messages ++
            [{ sender := "bot"
             , text := "❌ Error: " ++ r.error.getD ""
             , isError := true
             , count := none }] }
      else
        let cond := jsOrStr r.condition ""
        { st1 with
          condition := cond
          results := r.results.getD []
          messages := st1.messages ++
            [{ sender := "bot"
             , text := "✅ Found " ++ toString (r.count.getD 0) ++ " result(s)\nFilter: `" ++ cond ++ "`"
             , isError := false
             , count := r.count }] }
    | .thrown m =>
      { st1 with
        error := jsOrStr m "Network error"
        messages := st1.messages ++
          [{ sender := "bot"
           , text := "⚠️ Network error - Please try again"
           , isError := true
           , count := none }] }

end ChatPanel

namespace Core

/-- Modelled from the spec: a student Record — {name, grade, class_name,
quiz_score, homework_submitted} (§3).  The server-side dataset code is not
among the client sources. -/
structure Record where
  name : String
  grade : Int
  class_name : String
  quiz_score : Rat
  homework_submitted : Bool
deriving DecidableEq, Repr

/-- Modelled from the spec: a typed predicate value (§3 Predicate). -/
inductive Value where
  | int (n : Int)
  | str (s : String)
  | num (q : Rat)
  | bool (b : Bool)
deriving DecidableEq, Repr

/-- Modelled from the spec: the comparison operators of a Predicate
(equality, inequality, numeric ordering, boolean equality, §3). -/
inductive Op where
  | eq
  | ne
  | lt
  | le
  | gt
  | ge
deriving DecidableEq, Repr

/-- Modelled from the spec: a predicate tree — single comparisons combined
with logical AND/OR (§3 Condition, filter mode). -/
inductive Cond where
  | pred (field : String) (op : Op) (value : Value)
  | and (a b : Cond)
  | or (a b : Cond)
deriving DecidableEq, Repr

/-- Modelled from the spec: direction of a RankingSpec (max/min, §3). -/
inductive RankDir where
  | maxDir
  | minDir
deriving DecidableEq, Repr

/-- Modelled from the spec: a RankingSpec — {field, direction}; ties at
the extreme value are all included (§3, §4.4). -/
structure RankingSpec where
  field : String
  direction : RankDir
deriving DecidableEq, Repr

/-- Modelled from the spec: a Condition is either a pure filter (an
optional predicate tree; the translator may emit no predicate at all) or
a ranking query over a candidate pool (§3, §4.3). -/
inductive Condition where
  | filter (c : Option Cond)
  | ranking (spec : RankingSpec) (pool : Option Cond)
deriving DecidableEq, Repr

/-- Modelled from the spec: RoleScope — {grade: integer or "any",
class_name: string or "any"}; `none` models "any" (§3). -/
structure RoleScope where
  grade : Option Int
  class_name : Option String
deriving DecidableEq, Repr

/-- Modelled from the spec: field lookup on a Record by schema name. -/
def fieldValue (r : Record) (f : String) : Option Value :=
  if f = "name" then some (.str r.name)
  else if f = "grade" then some (.int r.grade)
  else if f = "class_name" then some (.str r.class_name)
  else if f = "quiz_score" then some (.num r.quiz_score)
  else if f = "homework_submitted" then some (.bool r.homework_submitted)
  else none

/-- Modelled from the spec: evaluation of one comparison on type-matching
values; mismatched types never hold (§4.4). -/
def compareValues (op : Op) (a b : Value) : Bool :=
  match a, b with
  | .int x, .int y =>
    match op with
    | .eq => decide (x = y)
    | .ne => decide (x ≠ y)
    | .lt => decide (x < y)
    | .le => decide (x ≤ y)
    | .gt => decide (x > y)
    | .ge => decide (x ≥ y)
  | .num x, .num y =>
    match op with
    | .eq => decide (x = y)
    | .ne => decide (x ≠ y)
    | .lt => decide (x < y)
    | .le => decide (x ≤ y)
    | .gt => decide (x > y)
    | .ge => decide (x ≥ y)
  | .str x, .str y =>
    match op with
    | .eq => decide (x = y)
    | .ne => decide (x ≠ y)
    | _ => false
  | .bool x, .bool y =>
    match op with
    | .eq => decide (x = y)
    | .ne => decide (x ≠ y)
    | _ => false
  | _, _ => false

/-- Modelled from the spec: evaluation of a predicate tree on a Record
with the usual boolean logic (§4.4 filter mode). -/
def evalCond (r : Record) : Cond → Bool
  | .pred f op v =>
    match fieldValue r f with
    | some fv => compareValues op fv v
    | none => false
  | .and a b => evalCond r a && evalCond r b
  | .or a b => evalCond r a || evalCond r b

/-- Modelled from the spec: an absent predicate tree matches every row. -/
def evalOptCond (r : Record) : Option Cond → Bool
  | none => true
  | some c => evalCond r c

/-- Conjoin a predicate onto an optional predicate tree. -/
def conj (p : Cond) : Option Cond → Cond
  | none => p
  | some c => .and p c

/-- Modelled from the spec: the Access Scope Enforcer on a predicate tree —
"if RoleScope.grade is not any, conjoin (AND) an equality predicate on
grade to the filter branch", and the same for class_name (§4.3). -/
def addScope (scope : RoleScope) (c : Option Cond) : Option Cond :=
  let c1 : Option Cond :=
    match scope.class_name with
    | none => c
    | some cn => some (conj (.pred "class_name" .eq (.str cn)) c)
  match scope.grade with
  | none => c1
  | some g => some (conj (.pred "grade" .eq (.int g)) c1)

/-- Modelled from the spec: the Access Scope Enforcer — a pure function
from (Condition, RoleScope) to a new Condition; for ranking queries the
candidate pool is restricted to rows matching the scope (§4.3). -/
def enforceScope (scope : RoleScope) : Condition → Condition
  | .filter c => .filter (addScope scope c)
  | .ranking spec pool => .ranking spec (addScope scope pool)

/-- Modelled from the spec: filter-mode evaluation, preserving dataset
order (§4.4). -/
def evalFilter (c : Option Cond) (rows : List Record) : List Record :=
  rows.filter (fun r => evalOptCond r c)

/-- Modelled from the spec: the numeric value used to rank a row. -/
def rankValue (r : Record) (f : String) : Rat :=
  if f = "quiz_score" then r.quiz_score
  else if f = "grade" then (r.grade : Rat)
  else 0

/-- Modelled from the spec: the extreme value of the ranking field over a
candidate pool; `none` on an empty pool (§4.4 ranking mode). -/
def extremeValue (dir : RankDir) (f : String) : List Record → Option Rat
  | [] => none
  | r :: rest =>
    some (rest.foldl
      (fun acc x =>
        match dir with
        | .maxDir => max acc (rankValue x f)
        | .minDir => min acc (rankValue x f))
      (rankValue r f))

/-- Modelled from the spec: ranking-mode evaluation — all rows of the
candidate pool whose ranking field equals the extreme value; an empty
pool yields an empty result (§4.4). -/
def evalRanking (spec : RankingSpec) (pool : Option Cond) (rows : List Record) :
    List Record :=
  match extremeValue spec.direction spec.field (evalFilter pool rows) with
  | none => []
  | some v => (evalFilter pool rows).filter (fun r => rankValue r spec.field = v)

/-- Modelled from the spec: the Query Evaluator on a finalized Condition
(§4.4). -/
def evaluate (cond : Condition) (rows : List Record) : List Record :=
  match cond with
  | .filter c => evalFilter c rows
  | .ranking spec pool => evalRanking spec pool rows

end Core

/-! Helper lemmas about the JS-object accumulation pattern. -/

namespace Dashboard

theorem assocBump_keys {α : Type} (upd : Option α → α) (m : List (String × α))
    (k : String) :
    (assocBump upd m k).map Prod.fst =
      if k ∈ m.map Prod.fst then m.map Prod.fst else m.map Prod.fst ++ [k] := by
  induction m with
  | nil => simp [assocBump]
  | cons hd tl ih =>
    obtain ⟨k0, v⟩ := hd
    by_cases hk : k0 = k
    · subst hk
      simp [assocBump]
    · have hk2 : ¬ k = k0 := fun h => hk h.symm
      by_cases hmem : k ∈ tl.map Prod.fst
      · simp [assocBump, hk, ih, hmem, hk2]
      · simp [assocBump, hk, ih, hmem, hk2]

theorem firstOccurAux_congr (l : List String) :
    ∀ s1 s2 : List String, (∀ x, x ∈ s1 ↔ x ∈ s2) →
      firstOccurAux s1 l = firstOccurAux s2 l := by
  induction l with
  | nil => intro s1 s2 _; rfl
  | cons k rest ih =>
    intro s1 s2 h
    by_cases hk : k ∈ s1
    · simp [firstOccurAux, hk, (h k).mp hk, ih s1 s2 h]
    · have hk2 : k ∉ s2 := fun hx => hk ((h k).mpr hx)
      simp only [firstOccurAux, hk, hk2, if_neg, ite_false]
      exact congrArg (k :: ·) (ih (k :: s1) (k :: s2) (by intro x; simp [h x]))

theorem foldl_assocBump_keys {α β : Type} (f : β → Option α → α) (g : β → String) :
    ∀ (rs : List β) (m : List (String × α)),
      (rs.foldl (fun acc r => assocBump (f r) acc (g r)) m).map Prod.fst =
        m.map Prod.fst ++ firstOccurAux (m.map Prod.fst) (rs.map g) := by
  intro rs
  induction rs with
  | nil => intro m; simp [firstOccurAux]
  | cons r rest ih =>
    intro m
    simp only [List.foldl_cons, List.map_cons]
    rw [ih (assocBump (f r) m (g r)), assocBump_keys]
    by_cases hmem : g r ∈ m.map Prod.fst
    · simp only [hmem, if_pos, ite_true, firstOccurAux, if_pos hmem]
    · simp only [hmem, ite_false, firstOccurAux, if_neg hmem]
      rw [firstOccurAux_congr (rest.map g) (m.map Prod.fst ++ [g r])
        (g r :: m.map Prod.fst) (by intro x; simp [or_comm])]
      simp

theorem firstOccurAux_subset (l : List String) :
    ∀ (seen : List String) (x : String), x ∈ firstOccurAux seen l → x ∈ l := by
  induction l with
  | nil => intro seen x h; simp [firstOccurAux] at h
  | cons k rest ih =>
    intro seen x h
    by_cases hk : k ∈ seen
    · simp only [firstOccurAux, hk, ite_true, if_pos] at h
      exact List.mem_cons_of_mem _ (ih seen x h)
    · simp only [firstOccurAux, hk, ite_false, if_neg, List.mem_cons] at h
      rcases h with h | h
      · simp [h]
      · exact List.mem_cons_of_mem _ (ih (k :: seen) x h)

theorem byClass_keys (rs : List DRow) :
    (byClass rs).map Prod.fst = firstOccur (rs.map classOf) := by
  have h := foldl_assocBump_keys (fun (_ : DRow) => countUpd) classOf rs []
  simpa [byClass, firstOccur] using h

theorem scoresMap_keys (rs : List DRow) :
    (scoresMap rs).map Prod.fst = firstOccur (rs.map classOf) := by
  have h := foldl_assocBump_keys scoreUpd classOf rs []
  simpa [scoresMap, firstOccur] using h

theorem scores_keys (rs : List DRow) :
    (scores rs).map Prod.fst = firstOccur (rs.map classOf) := by
  by_cases h : rs = []
  · subst h
    simp [scores, firstOccur, firstOccurAux]
  · rw [scores, if_neg h, List.map_map]
    have : (Prod.fst ∘ fun p : String × (Rat × Nat) =>
        (p.1, roundTo1 (p.2.1 / (p.2.2 : Rat)))) = Prod.fst := rfl
    rw [this, scoresMap_keys]

theorem mem_assocBump_snd {α : Type} (P : α → Prop) (upd : Option α → α)
    (hupd : ∀ o, P (upd o)) :
    ∀ (m : List (String × α)) (k : String),
      (∀ q ∈ m, P q.2) → ∀ q ∈ assocBump upd m k, P q.2 := by
  intro m
  induction m with
  | nil =>
    intro k _ q hq
    simp only [assocBump, List.mem_singleton] at hq
    subst hq
    exact hupd none
  | cons hd tl ih =>
    intro k hm q hq
    obtain ⟨k0, v⟩ := hd
    by_cases hk : k0 = k
    · subst hk
      simp only [assocBump, if_pos rfl, ite_true, List.mem_cons] at hq
      rcases hq with hq | hq
      · subst hq; exact hupd (some v)
      · exact hm q (List.mem_cons_of_mem _ hq)
    · simp only [assocBump, hk, ite_false, if_neg, List.mem_cons] at hq
      rcases hq with hq | hq
      · subst hq; exact hm (k0, v) (List.mem_cons_self _ _)
      · exact ih k (fun q hq2 => hm q (List.mem_cons_of_mem _ hq2)) q hq

theorem foldl_assocBump_snd {α β : Type} (P : α → Prop) (f : β → Option α → α)
    (g : β → String) (hf : ∀ r o, P (f r o)) :
    ∀ (rs : List β) (m : List (String × α)),
      (∀ q ∈ m, P q.2) →
        ∀ q ∈ rs.foldl (fun acc r => assocBump (f r) acc (g r)) m, P q.2 := by
  intro rs
  induction rs with
  | nil => intro m hm q hq; exact hm q hq
  | cons r rest ih =>
    intro m hm q hq
    exact ih (assocBump (f r) m (g r))
      (mem_assocBump_snd P (f r) (hf r) m (g r) hm) q hq

theorem scoresMap_counts_pos (rs : List DRow) :
    ∀ q ∈ scoresMap rs, 0 < q.2.2 := by
  have h := foldl_assocBump_snd (fun p : Rat × Nat => 0 < p.2) scoreUpd classOf
    (fun r o => by simp [scoreUpd]) rs [] (by intro q hq; simp at hq)
  simpa [scoresMap] using h

end Dashboard

theorem jsOrStr_ne_empty (o : Option String) (dflt : String) (h : dflt ≠ "") :
    jsOrStr o dflt ≠ "" := by
  cases o with
  | none => simpa [jsOrStr] using h
  | some s => by_cases hs : s = "" <;> simp [jsOrStr, hs, h]

theorem jsTruthy_getD_ne_empty (o : Option String) (h : jsTruthy o = true) :
    o.getD "" ≠ "" := by
  cases o with
  | none => simp [jsTruthy] at h
  | some s => simpa [jsTruthy] using h

namespace Core

theorem evalCond_conj (r : Record) (p : Cond) (c : Option Cond) :
    evalCond r (conj p c) = (evalCond r p && evalOptCond r c) := by
  cases c <;> simp [conj, evalCond, evalOptCond]

theorem fieldValue_grade (r : Record) : fieldValue r "grade" = some (.int r.grade) :=
  rfl

theorem fieldValue_class (r : Record) :
    fieldValue r "class_name" = some (.str r.class_name) := rfl

theorem evalCond_gradePred (r : Record) (g : Int) :
    evalCond r (.pred "grade" .eq (.int g)) = decide (r.grade = g) := by
  simp [evalCond, fieldValue_grade, compareValues]

theorem evalCond_classPred (r : Record) (cn : String) :
    evalCond r (.pred "class_name" .eq (.str cn)) = decide (r.class_name = cn) := by
  simp [evalCond, fieldValue_class, compareValues]

theorem evalOptCond_addScope (scope : RoleScope) (c : Option Cond) (r : Record)
    (h : evalOptCond r (addScope scope c) = true) :
    (∀ g, scope.grade = some g → r.grade = g) ∧
    (∀ cn, scope.class_name = some cn → r.class_name = cn) := by
  obtain ⟨og, ocn⟩ := scope
  cases og with
  | none =>
    cases ocn with
    | none =>
      exact ⟨fun g hg => by simp at hg, fun cn hcn => by simp at hcn⟩
    | some cn0 =>
      simp only [addScope, evalOptCond, evalCond_conj, evalCond_classPred,
        Bool.and_eq_true, decide_eq_true_eq] at h
      refine ⟨fun g hg => by simp at hg, fun cn hcn => ?_⟩
      cases hcn
      exact h.1
  | some g0 =>
    cases ocn with
    | none =>
      simp only [addScope, evalOptCond, evalCond_conj, evalCond_gradePred,
        Bool.and_eq_true, decide_eq_true_eq] at h
      refine ⟨fun g hg => ?_, fun cn hcn => by simp at hcn⟩
      cases hg
      exact h.1
    | some cn0 =>
      simp only [addScope, evalOptCond, evalCond_conj, evalCond_gradePred,
        evalCond_classPred, Bool.and_eq_true, decide_eq_true_eq] at h
      refine ⟨fun g hg => ?_, fun cn hcn => ?_⟩
      · cases hg
        exact h.1
      · cases hcn
        exact h.2.1

theorem mem_evalFilter (c : Option Cond) (rows : List Record) (r : Record)
    (h : r ∈ evalFilter c rows) : evalOptCond r c = true :=
  (List.mem_filter.mp h).2

theorem mem_evalRanking (spec : RankingSpec) (pool : Option Cond)
    (rows : List Record) (r : Record) (h : r ∈ evalRanking spec pool rows) :
    r ∈ evalFilter pool rows := by
  unfold evalRanking at h
  split at h
  · simp at h
  · exact (List.mem_filter.mp h).1

end Core

/-! The claims. -/

/-- C1: for every RoleScope with a concrete grade, every query text and
every Condition the translator proposes (filter or ranking, adversarial or
not), every row returned by the evaluator after scope enforcement has that
grade; symmetrically for a concrete class_name. -/
theorem C1_scope_containment (scope : Core.RoleScope) (cond : Core.Condition)
    (rows : List Core.Record) (r : Core.Record)
    (hmem : r ∈ Core.evaluate (Core.enforceScope scope cond) rows) :
    (∀ g, scope.grade = some g → r.grade = g) ∧
    (∀ cn, scope.class_name = some cn → r.class_name = cn) := by
  cases cond with
  | filter c =>
    have h : Core.evalOptCond r (Core.addScope scope c) = true :=
      Core.mem_evalFilter _ rows r hmem
    exact Core.evalOptCond_addScope scope c r h
  | ranking spec pool =>
    have hmem2 : r ∈ Core.evalFilter (Core.addScope scope pool) rows :=
      Core.mem_evalRanking spec (Core.addScope scope pool) rows r hmem
    exact Core.evalOptCond_addScope scope pool r
      (Core.mem_evalFilter _ rows r hmem2)

/-- A one-row dataset inside the scope used to witness C1. -/
def c1Row : Core.Record :=
  { name := "x", grade := 7, class_name := "A", quiz_score := 90
  , homework_submitted := true }

/-- Witness for C1 at scope grade 7, class A, with an unconstrained filter
Condition over a one-row dataset. -/
theorem C1_scope_containment_witness :
    (∀ g, (Core.RoleScope.mk (some 7) (some "A")).grade = some g → c1Row.grade = g) ∧
    (∀ cn, (Core.RoleScope.mk (some 7) (some "A")).class_name = some cn →
      c1Row.class_name = cn) :=
  C1_scope_containment ⟨some 7, some "A"⟩ (.filter none) [c1Row] c1Row (by decide)

/-- The three-row input of the aggregation-correctness claim: classes
A, A, B with quiz scores 80, 90, 70. -/
def c2Rows : List Dashboard.DRow :=
  [⟨some "A", some 80⟩, ⟨some "A", some 90⟩, ⟨some "B", some 70⟩]

/-- C2: on rows with classes A, A, B and quiz scores 80, 90, 70 the
grouped averages are 85 for A and 70 for B; moreover, for every input,
every group in the output has at least one member row (its key occurs
among the input class values) and a strictly positive divisor, so a class
with zero member rows never appears and no division by zero happens. -/
theorem C2_aggregation_correctness :
    Dashboard.scores c2Rows = [("A", 85), ("B", 70)] ∧
    (∀ (rs : List Dashboard.DRow) (p : String × Rat),
      p ∈ Dashboard.scores rs → p.1 ∈ rs.map Dashboard.classOf) ∧
    (∀ (rs : List Dashboard.DRow) (q : String × (Rat × Nat)),
      q ∈ Dashboard.scoresMap rs → 0 < q.2.2) := by
  refine ⟨?_, ?_, ?_⟩
  · simp +decide only [c2Rows, Dashboard.scores, Dashboard.scoresMap,
      Dashboard.assocBump, Dashboard.classOf, Dashboard.scoreOf,
      Dashboard.scoreUpd, List.foldl_cons, List.foldl_nil, List.map_cons,
      List.map_nil]
    norm_num [Dashboard.roundTo1, round_eq]
  · intro rs p hp
    have h1 : p.1 ∈ (Dashboard.scores rs).map Prod.fst :=
      List.mem_map_of_mem Prod.fst hp
    rw [Dashboard.scores_keys] at h1
    exact Dashboard.firstOccurAux_subset _ _ _ h1
  · intro rs q hq
    exact Dashboard.scoresMap_counts_pos rs q hq

/-- Witness for C2: the group key A of the aggregated output indeed occurs
among the class values of the input rows. -/
theorem C2_aggregation_correctness_witness :
    ("A" : String) ∈ c2Rows.map Dashboard.classOf := by
  have h := C2_aggregation_correctness
  exact h.2.1 c2Rows ("A", 85) (by rw [h.1]; exact List.mem_cons_self _ _)

/-- C3: postQuery is a total function of the request outcome (it never
rejects), and on every failure it returns a value whose error field is a
non-empty string, whose condition is the empty string, whose results list
is empty and whose count is 0 — equal to the length of the results. -/
theorem C3_failure_is_a_value (e : APIClient.AxiosError) :
    ∃ s : String,
      (APIClient.postQuery (.failure e)).error = some s ∧ s ≠ "" ∧
      (APIClient.postQuery (.failure e)).condition = some "" ∧
      (APIClient.postQuery (.failure e)).results = some [] ∧
      (APIClient.postQuery (.failure e)).count = some 0 ∧
      (APIClient.postQuery (.failure e)).count =
        some ((APIClient.postQuery (.failure e)).results.getD []).length := by
  obtain ⟨msg, rd⟩ := e
  cases rd with
  | none =>
    exact ⟨_, rfl, jsOrStr_ne_empty _ _ (jsOrStr_ne_empty _ _ (by decide)),
      rfl, rfl, rfl, rfl⟩
  | some b =>
    exact ⟨_, rfl, jsOrStr_ne_empty _ _ (jsOrStr_ne_empty _ _ (by decide)),
      rfl, rfl, rfl, rfl⟩

/-- C4: when the resolved response has a truthy error field, handleSend
leaves results and condition untouched and surfaces the error (state error
set to the non-empty response error, plus an error chat message); the
catch branch also leaves results and condition untouched, so they change
only on the non-error branch. -/
theorem C4_error_branch_frame (st : ChatPanel.ChatState) (input : String)
    (r : APIClient.QueryResult) (hin : jsTrim input ≠ "")
    (herr : jsTruthy r.error = true) :
    (ChatPanel.handleSend st input (.response r)).results = st.results ∧
    (ChatPanel.handleSend st input (.response r)).condition = st.condition ∧
    (ChatPanel.handleSend st input (.response r)).error = r.error.getD "" ∧
    (ChatPanel.handleSend st input (.response r)).error ≠ "" ∧
    (∃ m : ChatPanel.Msg,
      (ChatPanel.handleSend st input (.response r)).messages =
        st.messages ++
          [{ sender := "user", text := input, isError := false, count := none }, m] ∧
      m.isError = true) ∧
    (∀ em : Option String,
      (ChatPanel.handleSend st input (.thrown em)).results = st.results ∧
      (ChatPanel.handleSend st input (.thrown em)).condition = st.condition) := by
  refine ⟨?_, ?_, ?_, ?_, ?_, ?_⟩
  · simp [ChatPanel.handleSend, hin, herr]
  · simp [ChatPanel.handleSend, hin, herr]
  · simp [ChatPanel.handleSend, hin, herr]
  · simp only [ChatPanel.handleSend, hin, if_neg, ite_false, herr, if_pos,
      ite_true]
    exact jsTruthy_getD_ne_empty r.error herr
  · refine ⟨{ sender := "bot", text := "❌ Error: " ++ r.error.getD ""
            , isError := true, count := none }, ?_, rfl⟩
    simp [ChatPanel.handleSend, hin, herr]
  · intro em
    constructor <;> simp [ChatPanel.handleSend, hin]

/-- Witness for C4 at a concrete state, the input hi and a response whose
error field is the string boom. -/
theorem C4_error_branch_frame_witness :
    (ChatPanel.handleSend ⟨"", [], [], ""⟩ "hi"
      (.response ⟨some "boom", none, none, none⟩)).results =
      (⟨"", [], [], ""⟩ : ChatPanel.ChatState).results ∧
    (ChatPanel.handleSend ⟨"", [], [], ""⟩ "hi"
      (.response ⟨some "boom", none, none, none⟩)).condition =
      (⟨"", [], [], ""⟩ : ChatPanel.ChatState).condition :=
  ⟨(C4_error_branch_frame ⟨"", [], [], ""⟩ "hi" ⟨some "boom", none, none, none⟩
      (by decide) (by decide)).1,
   (C4_error_branch_frame ⟨"", [], [], ""⟩ "hi" ⟨some "boom", none, none, none⟩
      (by decide) (by decide)).2.1⟩

/-- C5: whenever the results panel renders a table, the record count of
the header and both footer counts equal the length of the row sequence
rendered in the table body. -/
theorem C5_count_equals_rendered_rows (cfg : ResultsPanel.SortConfig)
    (hidden : List String) (results : List Row) (v : ResultsPanel.PanelView)
    (h : ResultsPanel.renderPanel cfg hidden results = some v) :
    v.headerCount = v.bodyRows.length ∧
    v.footerShown = v.bodyRows.length ∧
    v.footerTotal = v.bodyRows.length := by
  by_cases hres : results = []
  · simp [ResultsPanel.renderPanel, hres] at h
  · simp only [ResultsPanel.renderPanel, hres, ite_false, if_neg,
      Option.some.injEq] at h
    subst h
    exact ⟨rfl, rfl, rfl⟩

/-- Witness for C5 on a one-row result list with no sort key. -/
theorem C5_count_equals_rendered_rows_witness :
    (ResultsPanel.PanelView.mk 1 ["name"] [[("name", JVal.str "x")]] 1 1).headerCount =
      (ResultsPanel.PanelView.mk 1 ["name"] [[("name", JVal.str "x")]] 1 1).bodyRows.length ∧
    (ResultsPanel.PanelView.mk 1 ["name"] [[("name", JVal.str "x")]] 1 1).footerShown =
      (ResultsPanel.PanelView.mk 1 ["name"] [[("name", JVal.str "x")]] 1 1).bodyRows.length ∧
    (ResultsPanel.PanelView.mk 1 ["name"] [[("name", JVal.str "x")]] 1 1).footerTotal =
      (ResultsPanel.PanelView.mk 1 ["name"] [[("name", JVal.str "x")]] 1 1).bodyRows.length :=
  C5_count_equals_rendered_rows ⟨none, .asc⟩ [] [[("name", JVal.str "x")]]
    ⟨1, ["name"], [[("name", JVal.str "x")]], 1, 1⟩ (by decide)

/-- C6: with no sort column selected (key null), the results panel shows
the rows exactly in received order, and rendering the same unchanged row
list twice yields identical rows in identical order (the computation is a
pure function of its inputs). -/
theorem C6_null_key_preserves_order :
    (∀ (dir : ResultsPanel.Direction) (rs : List Row),
      ResultsPanel.sortedResults ⟨none, dir⟩ rs = rs) ∧
    (∀ (cfg : ResultsPanel.SortConfig) (rs : List Row),
      ResultsPanel.sortedResults cfg rs = ResultsPanel.sortedResults cfg rs) :=
  ⟨fun _ _ => rfl, fun _ _ => rfl⟩

/-- C7: the group keys of both Dashboard aggregations (per-class counts
and per-class averages) appear in order of each key's first appearance in
the input sequence. -/
theorem C7_group_keys_insertion_order (rs : List Dashboard.DRow) :
    (Dashboard.byClass rs).map Prod.fst =
      Dashboard.firstOccur (rs.map Dashboard.classOf) ∧
    (Dashboard.scores rs).map Prod.fst =
      Dashboard.firstOccur (rs.map Dashboard.classOf) :=
  ⟨Dashboard.byClass_keys rs, Dashboard.scores_keys rs⟩

/-- C8: the role object of the request payload is exactly
{grade, class_name} taken from the current role selection, and two
submissions with the same selected role and different query texts carry
identical role payloads. -/
theorem C8_role_payload_text_independent (t1 t2 : String)
    (role : ChatPanel.Role) (sid : String) :
    (ChatPanel.buildPayload t1 role sid).role =
      (ChatPanel.buildPayload t2 role sid).role ∧
    (ChatPanel.buildPayload t1 role sid).role =
      { grade := role.grade, class_name := role.cls } :=
  ⟨rfl, rfl⟩

/-- C9: the columns the results panel can display are exactly the keys of
the first row — a key appearing only in later rows is never a column —
with all columns visible when nothing is hidden, and an empty row list
renders no table and has no headers. -/
theorem C9_columns_from_first_row :
    (∀ (r : Row) (rest : List Row),
      ResultsPanel.headers (r :: rest) = r.map Prod.fst) ∧
    (∀ (r : Row) (rest : List Row) (k : String),
      k ∉ r.map Prod.fst → k ∉ ResultsPanel.headers (r :: rest)) ∧
    (∀ rs : List Row, ResultsPanel.visibleHeaders [] rs = ResultsPanel.headers rs) ∧
    (∀ (cfg : ResultsPanel.SortConfig) (hidden : List String),
      ResultsPanel.renderPanel cfg hidden [] = none) ∧
    ResultsPanel.headers [] = [] := by
  refine ⟨fun r rest => rfl, ?_, ?_, fun cfg hidden => rfl, rfl⟩
  · intro r rest k hk
    simpa [ResultsPanel.headers] using hk
  · intro rs
    simp [ResultsPanel.visibleHeaders]

/-- Witness for C9: a key present only in the second row is not among the
headers. -/
theorem C9_columns_from_first_row_witness :
    ("zz" : String) ∉ ResultsPanel.headers
      [[("a", JVal.null)], [("zz", JVal.null)]] :=
  C9_columns_from_first_row.2.1 [("a", JVal.null)] [[("zz", JVal.null)]] "zz"
    (by decide)

/-- C10: when the server answers with an HTTP error whose JSON body has a
detail field but no message field, postQuery resolves with the literal
fallback text — the interceptor re-throws the body itself, the catch
clause finds no error.response.data there, and the server-supplied detail
is dropped. -/
theorem C10_detail_is_dropped (m d : String) :
    (APIClient.postQuery (.failure
      { message := m
      , responseData := some { detail := some d, message := none
                             , responseData := none } })).error =
      some "Failed to process query" := rfl

end Dumroo
